import Mathlib

/-!
# Verification of the redis-go-suo distributed-lock core

Shallow embedding of the `redissuo` lock primitive (Lua acquire/release
scripts and their Go wrappers) and of the `redissuorun` retry-and-lifecycle
runner. Time is modelled as `Int` nanoseconds (Go `time.Time`/`time.Duration`
resolution); the store key cell holds the owner token together with its
absolute expiry instant, and a key is visible exactly while the current
instant is before that expiry.
-/

namespace RedisSuo

/-- One store key cell: the stored owner token and the absolute instant
(nanoseconds) at which the store expires the key. -/
structure Cell where
  value : String
  expireAt : Int
deriving Repr, DecidableEq

/-- Semantics of `GET KEYS[1]` at instant `now`: the stored value while the key has not
yet expired, absent otherwise. -/
def getAt (cell : Option Cell) (now : Int) : Option String :=
  match cell with
  | none => none
  | some c => if now < c.expireAt then some c.value else none

/-- Reply of the acquire script as seen by the Go client: the status string
`"OK"`, or the null reply that `SET ... NX` produces when the key exists
(surfaced by the client as the `redis.Nil` error). -/
inductive AcqReply
  | ok
  | nilReply
deriving Repr, DecidableEq

/-- The atomic acquire script (`commandAcquire` in `redissuo`):
if `GET KEYS[1] == ARGV[1]` then `SET KEYS[1] ARGV[1] PX ARGV[2]` and reply
`"OK"`; else reply with the outcome of `SET KEYS[1] ARGV[1] NX PX ARGV[2]`.
`leaseMs` is the `PX` argument in milliseconds; the new expiry instant is
`now + leaseMs * 1000000` nanoseconds. -/
def commandAcquire (cell : Option Cell) (token : String) (leaseMs now : Int) :
    Option Cell × AcqReply :=
  match getAt cell now with
  | some v =>
    if v = token then
      (some ⟨token, now + leaseMs * 1000000⟩, .ok)
    else
      (cell, .nilReply)
  | none => (some ⟨token, now + leaseMs * 1000000⟩, .ok)

/-- The atomic release script (`commandRelease` in `redissuo`):
`local ch = GET KEYS[1]`; if absent reply `2`; if `ch == ARGV[1]` then
`DEL KEYS[1]` and reply the deletion count (the key is present at this point
of the atomic script, so `DEL` removes it and replies `1`); else reply `3`. -/
def commandRelease (cell : Option Cell) (token : String) (now : Int) :
    Option Cell × Int :=
  match getAt cell now with
  | none => (cell, 2)
  | some v =>
    if v = token then (none, 1) else (cell, 3)

/-- A value inside a non-null reply, as the Go client decodes it:
an `int64`, a string, or some other shape. -/
inductive GoVal
  | gint (n : Int)
  | gstr (s : String)
  | gother
deriving Repr, DecidableEq

/-- Error side of an `Eval(...).Result()` call: the sentinel `redis.Nil`
(null reply) or a transport/scripting error carrying a message. -/
inductive RedisErr
  | redisNil
  | transport (msg : String)
deriving Repr, DecidableEq

/-- Result of `Eval(...).Result()`: an error, or a possibly-null decoded
reply value. -/
abbrev EvalResult := Except RedisErr (Option GoVal)

/-- The reply-interpretation chain of `Suo.acquire`: `redis.Nil` means
contention `(false, nil)`; another error propagates `(false, err)`;
a nil reply, a non-string reply, or a string other than `"OK"` give
`(false, nil)` after logging; `"OK"` gives `(true, nil)`. -/
def acquireResult (resp : EvalResult) : Bool × Option String :=
  match resp with
  | .error .redisNil => (false, none)
  | .error (.transport e) => (false, some e)
  | .ok none => (false, none)
  | .ok (some (.gstr s)) => if s = "OK" then (true, none) else (false, none)
  | .ok (some (.gint _)) => (false, none)
  | .ok (some .gother) => (false, none)

/-- The reply-interpretation chain of `Suo.release`: any error propagates;
a nil reply or a non-`int64` reply give `(false, nil)`; codes 0, 1, 2 give
`(true, nil)`; code 3 gives `(false, nil)`; any other integer code gives
`(false, nil)` after logging. -/
def releaseResult (resp : EvalResult) : Bool × Option String :=
  match resp with
  | .error .redisNil => (false, some "redis: nil")
  | .error (.transport e) => (false, some e)
  | .ok none => (false, none)
  | .ok (some (.gint n)) =>
    if n = 0 then (true, none)
    else if n = 1 then (true, none)
    else if n = 2 then (true, none)
    else if n = 3 then (false, none)
    else (false, none)
  | .ok (some (.gstr _)) => (false, none)
  | .ok (some .gother) => (false, none)

/-- The lock primitive `Suo`: the key (lock name) and the lease `ttl` in
nanoseconds (`time.Duration`). The redis client and logger are ports with
no bearing on the verified logic. -/
structure Suo where
  key : String
  ttl : Int
deriving Repr, DecidableEq

/-- Model of `o.ttl.Milliseconds()`: Go integer division truncates toward zero. -/
def ttlMilliseconds (o : Suo) : Int :=
  Int.tdiv o.ttl 1000000

/-- The session handle `Xin`: lock key, owning session token, and the
conservative expiry estimate. -/
structure Xin where
  key : String
  sessionUUID : String
  expire : Int
deriving Repr, DecidableEq

/-- The four time readings relevant to one `AcquireLockWithSession` call:
`start` is `startTime := time.Now()` at entry, `evalAt` the store-side
instant at which the acquire script runs, `completion` the `now :=
time.Now()` reading after the round trip, and `sinceAt` the instant of the
subsequent `time.Since(startTime)` call. -/
structure AcqTiming where
  start : Int
  evalAt : Int
  completion : Int
  sinceAt : Int
deriving Repr, DecidableEq

/-- The deadline computation of `AcquireLockWithSession`:
`timeSpent := sinceAt - start`, `remain := ttl - timeSpent`,
`expire := completion + remain`. -/
def conservativeExpire (ttl : Int) (t : AcqTiming) : Int :=
  t.completion + (ttl - (t.sinceAt - t.start))

/-- Reply handling of `Suo.AcquireLockWithSession`: a wrapped error from
`acquire` propagates as `(nil, err)`; `(false, nil)` from `acquire` becomes
`(nil, nil)`; on success a session handle with the conservative expiry is
returned. -/
def acquireLockWithSession (o : Suo) (token : String) (resp : EvalResult)
    (t : AcqTiming) : Option Xin × Option String :=
  let r := acquireResult resp
  match r.2 with
  | some e => (none, some e)
  | none =>
    if r.1 then
      (some ⟨o.key, token, conservativeExpire o.ttl t⟩, none)
    else
      (none, none)

/-- Fatal assertions of the external `must` package, which stop the process
rather than return: `must.OK` (blank string), `must.Nice` (zero value of the
argument's type), `must.Equals` (mismatch). Modelled as the error side of
`Except`. -/
inductive MustPanic
  | mustOK
  | mustNice
  | mustEquals
deriving Repr, DecidableEq

/-- Model of `NewSuo`: validates the client, the key and the ttl with `must.Nice`,
which halts exactly on the zero value of each argument's type — `nil` for
the client interface (the client is opaque here, `Option Unit` with `none`
as the nil interface), `""` for the key, and duration `0` for the ttl — and
otherwise returns the configured lock. -/
def newSuo (rds : Option Unit) (key : String) (ttl : Int) :
    Except MustPanic Suo :=
  if rds = none then .error .mustNice
  else if key = "" then .error .mustNice
  else if ttl = 0 then .error .mustNice
  else .ok ⟨key, ttl⟩

/-- One `Eval` request as `Suo.acquire` sends it to the store: the key, the
token argument, and the `PX` lease argument in milliseconds. -/
structure SentEval where
  key : String
  token : String
  pxMs : Int
deriving Repr, DecidableEq

/-- Entry of `Suo.acquire`: `must.OK(value)` halts on a blank token before
any store contact; otherwise exactly one `Eval` with the key, the token and
the truncated-millisecond lease is sent and its reply is interpreted by
`acquireResult`. The returned list records the store contacts of the call. -/
def acquireChecked (o : Suo) (value : String) (resp : EvalResult) :
    Except MustPanic (List SentEval × (Bool × Option String)) :=
  if value = "" then .error .mustOK
  else .ok ([⟨o.key, value, ttlMilliseconds o⟩], acquireResult resp)

/-- Entry of `Suo.release`: `must.OK(value)` halts on a blank token before
any store contact; otherwise exactly one `Eval` with the key and the token
is sent and its reply is interpreted by `releaseResult`. -/
def releaseChecked (o : Suo) (value : String) (resp : EvalResult) :
    Except MustPanic (List (String × String) × (Bool × Option String)) :=
  if value = "" then .error .mustOK
  else .ok ([(o.key, value)], releaseResult resp)

/-- Lowercase hex digit, as Go `encoding/hex` emits. -/
def hexDigit (n : Nat) : Char :=
  if n < 10 then Char.ofNat (48 + n) else Char.ofNat (87 + n)

/-- Model of `hex.EncodeToString`: two hex digits per input byte. -/
def hexEncodeToString (bytes : List Nat) : String :=
  String.mk ((bytes.map (fun b => [hexDigit (b / 16), hexDigit (b % 16)])).flatten)

/-- Model of `utils.NewUUID`: the hex encoding of the sixteen bytes of a fresh
random UUID (the byte source is a parameter of the model). -/
def newUUID (uuidBytes : List Nat) : String :=
  hexEncodeToString uuidBytes

/-- Model of `Suo.Acquire`: generates a fresh token with `utils.NewUUID` and
delegates to the checked acquire path with it. -/
def acquirePublic (o : Suo) (uuidBytes : List Nat) (resp : EvalResult) :
    Except MustPanic (List SentEval × (Bool × Option String)) :=
  acquireChecked o (newUUID uuidBytes) resp

/-- Model of `Suo.AcquireAgainExtendLock`: `must.Equals(xin.key, o.key)` halts on a
lock-name mismatch; otherwise the call delegates to
`acquireLockWithSession` with the input session's own token. -/
def acquireAgainExtendLock (o : Suo) (xin : Xin) (resp : EvalResult)
    (t : AcqTiming) : Except MustPanic (Option Xin × Option String) :=
  if xin.key = o.key then
    .ok (acquireLockWithSession o xin.sessionUUID resp t)
  else
    .error .mustEquals

/-- A value carried by a Go `panic`: an `error` value, or any other value
(rendered through `%v` on recovery). -/
inductive PanicVal
  | errVal (e : String)
  | otherVal (s : String)
deriving Repr, DecidableEq

/-- Outcome of the caller-supplied work function: a normal return with an
optional error, or an abnormal termination carrying a panic value. -/
inductive WorkResult
  | ret (e : Option String)
  | panicked (v : PanicVal)
deriving Repr, DecidableEq

/-- Model of `safeRun`: runs the work and converts a recovered panic into a normal
error result — a panic value that is an `error` becomes that error, any
other value is wrapped in the recovery message. A normal return passes
through unchanged. -/
def safeRun : WorkResult → Option String
  | .ret e => e
  | .panicked (.errVal e) => some e
  | .panicked (.otherVal s) => some ("错误(已从崩溃中恢复):" ++ s)

/-- One release attempt outcome as `releaseOnce` reports it. -/
abbrev RelAttempt := Bool × Option String

/-- Model of `retryingRelease` (loop bounded here by `fuel`): an error or a `false`
result is logged, slept on and retried; the loop stops only on
`(true, nil)`. Returns whether release was confirmed within `fuel`
attempts. -/
def retryingRelease (attempts : Nat → RelAttempt) : Nat → Nat → Bool
  | 0, _ => false
  | fuel + 1, i =>
    match attempts i with
    | (_, some _) => retryingRelease attempts fuel (i + 1)
    | (true, none) => true
    | (false, none) => retryingRelease attempts fuel (i + 1)

/-- Result of one `SuoLockXqt` execution: the value returned to the caller
and whether the deferred release phase ran. -/
structure RunOutcome where
  result : Option String
  releaseRan : Bool
deriving Repr, DecidableEq

/-- The body of `SuoLockXqt` around the work phase: when the acquisition
loop ends with a context error that error is returned and the deferred
release is never installed; after a successful acquisition the deferred
`retryingRelease` always runs, and the caller receives exactly the
`safeRun` of the work outcome (`execRun` adds only the deadline-bounded
context, modelled inside `WorkResult`), independent of the release
attempts' outcomes. The second component reports whether the release loop
confirmed the release within its fuel. -/
def suoLockXqt (acq : Except String Unit) (w : WorkResult)
    (relAttempts : Nat → RelAttempt) (relFuel : Nat) : RunOutcome × Bool :=
  match acq with
  | .error e => (⟨some e, false⟩, false)
  | .ok _ => (⟨safeRun w, true⟩, retryingRelease relAttempts relFuel 0)

/-- Outcome of one `acquireOnce` store round trip: a wrapped error,
contention (`(nil, nil)` from `AcquireLockWithSession`), or success. -/
inductive AttemptOutcome
  | err (e : String)
  | contended
  | success
deriving Repr, DecidableEq

/-- Model of `retryingAcquire` (loop bounded here by `fuel`): before each attempt the
caller's context is checked and a dead context ends the loop with that
context's error without contacting the store; otherwise the store is
contacted with the invocation's token (each contact is recorded in the
returned trace) and an error or contention sleeps and retries. The first
component is `some (some e)` when the loop returned the context error `e`,
`some none` when the lock was acquired, and `none` when `fuel` ran out. -/
def retryingAcquire (ctxErr : Nat → Option String)
    (attempt : Nat → String → AttemptOutcome) (token : String) :
    Nat → Nat → Option (Option String) × List (Nat × String)
  | 0, _ => (none, [])
  | fuel + 1, i =>
    match ctxErr i with
    | some e => (some (some e), [])
    | none =>
      match attempt i token with
      | .success => (some none, [(i, token)])
      | .err _ =>
        let r := retryingAcquire ctxErr attempt token fuel (i + 1)
        (r.1, (i, token) :: r.2)
      | .contended =>
        let r := retryingAcquire ctxErr attempt token fuel (i + 1)
        (r.1, (i, token) :: r.2)

/-- The acquisition phase of `SuoLockXqt`: one token is generated by
`utils.NewUUID` at entry, and the closure handed to `retryingAcquire` uses
that same token on each attempt. -/
def suoLockAcquirePhase (uuidBytes : List Nat) (ctxErr : Nat → Option String)
    (attempt : Nat → String → AttemptOutcome) (fuel : Nat) :
    Option (Option String) × List (Nat × String) :=
  retryingAcquire ctxErr attempt (newUUID uuidBytes) fuel 0

/-- The context a runner helper works with: an independent
`context.WithTimeout(context.Background(), d)`, or a plain
`context.WithCancel(ctx)` child of the caller's context with no timeout of
its own. -/
inductive CtxKind
  | timeoutBackground (d : Int)
  | cancellableChild
deriving Repr, DecidableEq

/-- Model of `safeCtx`: when the parent context already has an error, substitute an
independent background context bounded by `duration`; otherwise derive a
plain cancellable child of the parent. -/
def safeCtx (parentErr : Option String) (duration : Int) : CtxKind :=
  match parentErr with
  | some _ => .timeoutBackground duration
  | none => .cancellableChild

/-- Constant `10 * time.Second` in nanoseconds. -/
def tenSeconds : Int := 10000000000

/-- The context selection of `releaseOnce`:
`safeCtx(ctx, max(sleep, 10*time.Second))`. -/
def releaseOnceCtx (parentErr : Option String) (sleep : Int) : CtxKind :=
  safeCtx parentErr (max sleep tenSeconds)

end RedisSuo

namespace RedisSuo

/-- C1 helper: after an acquire script run at `now`, the owner visible at
`now` is the requesting token exactly when the key was absent or already
owned by that token. -/
theorem commandAcquire_cases (cell : Option Cell) (token : String)
    (leaseMs now : Int) :
    (getAt cell now = some token →
      commandAcquire cell token leaseMs now =
        (some ⟨token, now + leaseMs * 1000000⟩, .ok)) ∧
    (getAt cell now = none →
      commandAcquire cell token leaseMs now =
        (some ⟨token, now + leaseMs * 1000000⟩, .ok)) ∧
    (∀ v, getAt cell now = some v → v ≠ token →
      commandAcquire cell token leaseMs now = (cell, .nilReply)) := by
  refine ⟨?_, ?_, ?_⟩
  · intro h
    simp [commandAcquire, h]
  · intro h
    simp [commandAcquire, h]
  · intro v h hv
    simp [commandAcquire, h, hv]

/-- C1: the atomic acquire script refreshes the expiry and replies `"OK"`
when the current value already equals the token; otherwise it writes the
token (with that expiry) only when the key is absent; it never overwrites an
existing different token, so a different current owner is still the owner
after the script runs. -/
theorem acquire_script_owner_exclusion (cell : Option Cell) (token : String)
    (leaseMs now : Int) :
    (getAt cell now = some token →
      commandAcquire cell token leaseMs now =
        (some ⟨token, now + leaseMs * 1000000⟩, .ok)) ∧
    (getAt cell now = none →
      commandAcquire cell token leaseMs now =
        (some ⟨token, now + leaseMs * 1000000⟩, .ok)) ∧
    (∀ t, t ≠ token → getAt cell now = some t →
      (commandAcquire cell token leaseMs now).1 = cell ∧
      (commandAcquire cell token leaseMs now).2 = .nilReply ∧
      getAt (commandAcquire cell token leaseMs now).1 now = some t) := by
  obtain ⟨h1, h2, h3⟩ := commandAcquire_cases cell token leaseMs now
  refine ⟨h1, h2, ?_⟩
  intro t ht hcur
  have hrun := h3 t hcur (by intro he; exact ht he)
  rw [hrun]
  exact ⟨rfl, rfl, hcur⟩

/-- Witness for C1: the refresh branch and the owner-exclusion branch at
concrete inputs. -/
theorem acquire_script_owner_exclusion_witness :
    commandAcquire (some ⟨"tokA", 5⟩) "tokA" 2 0 =
      (some ⟨"tokA", 2000000⟩, .ok) ∧
    getAt (commandAcquire (some ⟨"tokB", 5⟩) "tokA" 2 0).1 0 = some "tokB" := by
  constructor
  · exact (acquire_script_owner_exclusion (some ⟨"tokA", 5⟩) "tokA" 2 0).1 (by decide)
  · exact ((acquire_script_owner_exclusion (some ⟨"tokB", 5⟩) "tokA" 2 0).2.2
      "tokB" (by decide) (by decide)).2.2

/-- C2: the release script replies `2` on an absent key, deletes and
replies the deletion count when the stored value equals the token, and
replies `3` leaving the key (and hence a foreign owner) unchanged otherwise;
the Go wrapper maps codes 0, 1, 2 to `(true, nil)`, code 3 to
`(false, nil)`, every other integer code to `(false, nil)`, and propagates
transport errors. -/
theorem release_script_and_wrapper (cell : Option Cell) (token : String)
    (now : Int) :
    (getAt cell now = none → commandRelease cell token now = (cell, 2)) ∧
    (getAt cell now = some token →
      commandRelease cell token now = (none, 1) ∧ (0 ≤ (1 : Int) ∧ (1 : Int) ≤ 1)) ∧
    (∀ v, v ≠ token → getAt cell now = some v →
      commandRelease cell token now = (cell, 3) ∧
      getAt (commandRelease cell token now).1 now = some v) ∧
    (releaseResult (.ok (some (.gint 0))) = (true, none) ∧
     releaseResult (.ok (some (.gint 1))) = (true, none) ∧
     releaseResult (.ok (some (.gint 2))) = (true, none) ∧
     releaseResult (.ok (some (.gint 3))) = (false, none)) ∧
    (∀ n : Int, n ≠ 0 → n ≠ 1 → n ≠ 2 → n ≠ 3 →
      releaseResult (.ok (some (.gint n))) = (false, none)) ∧
    (∀ e, releaseResult (.error (.transport e)) = (false, some e)) := by
  refine ⟨?_, ?_, ?_, ?_, ?_, ?_⟩
  · intro h
    simp [commandRelease, h]
  · intro h
    refine ⟨by simp [commandRelease, h], by norm_num⟩
  · intro v hv h
    have : commandRelease cell token now = (cell, 3) := by
      simp [commandRelease, h, hv]
    exact ⟨this, by rw [this]; exact h⟩
  · refine ⟨rfl, rfl, rfl, rfl⟩
  · intro n h0 h1 h2 h3
    simp [releaseResult, h0, h1, h2, h3]
  · intro e
    rfl

/-- C3 counterexample. With `ttl = 1900000` ns (1.9 ms), `PX` receives the
truncated `1` ms, so the store expires the key at `evalAt + 1000000` ns,
while the returned deadline is `completion + ttl - (sinceAt - start)`:
with all four instants equal to 0 the deadline `1900000` is strictly later
than the store's actual expiry `1000000`, refuting the claim that the
deadline is never later than the store's actual expiry. -/
theorem deadline_exceeds_store_expiry_cex :
    ttlMilliseconds ⟨"k", 1900000⟩ = 1 ∧
    commandAcquire none "tokA" (ttlMilliseconds ⟨"k", 1900000⟩) 0 =
      (some ⟨"tokA", 1000000⟩, .ok) ∧
    (acquireLockWithSession ⟨"k", 1900000⟩ "tokA"
      (.ok (some (.gstr "OK"))) ⟨0, 0, 0, 0⟩).1 =
      some ⟨"k", "tokA", 1900000⟩ ∧
    ¬ ((1900000 : Int) ≤ 1000000) := by
  refine ⟨by decide, by decide, rfl, by decide⟩

/-- C3 amended: on a successful `AcquireLockWithSession`, the session
deadline equals `completion + (ttl - timeSpent)` with
`timeSpent = sinceAt - start`; it is never later than `start + ttl`; and
provided the lease is a whole number of milliseconds (so the `PX` truncation
loses nothing), it is never later than the store's actual expiry
`evalAt + ttlMilliseconds * 1000000`. -/
theorem deadline_conservative (o : Suo) (token : String) (resp : EvalResult)
    (t : AcqTiming) (xin : Xin)
    (hse : t.start ≤ t.evalAt)
    (hcs : t.completion ≤ t.sinceAt)
    (hms : (1000000 : Int) ∣ o.ttl)
    (hacq : (acquireLockWithSession o token resp t).1 = some xin) :
    xin.expire = t.completion + (o.ttl - (t.sinceAt - t.start)) ∧
    xin.expire ≤ t.start + o.ttl ∧
    xin.expire ≤ t.evalAt + ttlMilliseconds o * 1000000 := by
  have hexp : xin.expire = conservativeExpire o.ttl t := by
    rcases hr : acquireResult resp with ⟨b, e⟩
    unfold acquireLockWithSession at hacq
    rw [hr] at hacq
    cases e with
    | some e => simp at hacq
    | none =>
      cases b
      · simp at hacq
      · simp at hacq
        rw [← hacq]
  have hwhole : ttlMilliseconds o * 1000000 = o.ttl := by
    unfold ttlMilliseconds
    rw [Int.tdiv_eq_ediv_of_dvd hms, Int.ediv_mul_cancel hms]
  refine ⟨hexp, ?_, ?_⟩
  · rw [hexp]
    unfold conservativeExpire
    linarith
  · rw [hexp, hwhole]
    unfold conservativeExpire
    linarith

/-- Witness for C3: the amended bounds at a concrete 2 ms lease and
concrete monotone instants. -/
theorem deadline_conservative_witness :
    (acquireLockWithSession ⟨"k", 2000000⟩ "tokA"
      (.ok (some (.gstr "OK"))) ⟨0, 1, 5, 6⟩).1 = some ⟨"k", "tokA", 1999999⟩ ∧
    (1999999 : Int) ≤ 0 + 2000000 ∧
    (1999999 : Int) ≤ 1 + ttlMilliseconds ⟨"k", 2000000⟩ * 1000000 := by
  have h := deadline_conservative ⟨"k", 2000000⟩ "tokA"
    (.ok (some (.gstr "OK"))) ⟨0, 1, 5, 6⟩ ⟨"k", "tokA", 1999999⟩
    (by decide) (by decide) (by decide) rfl
  exact ⟨rfl, h.2.1, h.2.2⟩

/-- C4: `AcquireLockWithSession` returns a non-nil error exactly on a
transport/scripting error other than `redis.Nil`; `redis.Nil` (contention)
gives `(nil, nil)`; a nil reply, an unexpected reply type, or a string reply
other than `"OK"` also give `(nil, nil)`; a session handle is returned
exactly when the reply is the string `"OK"`. -/
theorem acquire_reply_mapping (o : Suo) (token : String) (t : AcqTiming) :
    (∀ resp : EvalResult,
      (acquireLockWithSession o token resp t).2.isSome ↔
        ∃ e, resp = .error (.transport e)) ∧
    (acquireLockWithSession o token (.error .redisNil) t = (none, none)) ∧
    (∀ e, acquireLockWithSession o token (.error (.transport e)) t =
      (none, some e)) ∧
    (acquireLockWithSession o token (.ok none) t = (none, none)) ∧
    (∀ n, acquireLockWithSession o token (.ok (some (.gint n))) t =
      (none, none)) ∧
    (acquireLockWithSession o token (.ok (some .gother)) t = (none, none)) ∧
    (∀ s, s ≠ "OK" →
      acquireLockWithSession o token (.ok (some (.gstr s))) t = (none, none)) ∧
    (∀ resp : EvalResult,
      (acquireLockWithSession o token resp t).1.isSome ↔
        resp = .ok (some (.gstr "OK"))) := by
  refine ⟨?_, rfl, fun e => rfl, rfl, fun n => rfl, rfl, ?_, ?_⟩
  · intro resp
    rcases resp with e | v
    · cases e
      · simp [acquireLockWithSession, acquireResult]
      · simp [acquireLockWithSession, acquireResult]
    · rcases v with _ | v
      · simp [acquireLockWithSession, acquireResult]
      · rcases v with n | s | _
        · simp [acquireLockWithSession, acquireResult]
        · by_cases hs : s = "OK" <;>
            simp [acquireLockWithSession, acquireResult, hs]
        · simp [acquireLockWithSession, acquireResult]
  · intro s hs
    simp [acquireLockWithSession, acquireResult, hs]
  · intro resp
    rcases resp with e | v
    · cases e
      · simp [acquireLockWithSession, acquireResult]
      · simp [acquireLockWithSession, acquireResult]
    · rcases v with _ | v
      · simp [acquireLockWithSession, acquireResult]
      · rcases v with n | s | _
        · simp [acquireLockWithSession, acquireResult]
        · by_cases hs : s = "OK" <;>
            simp [acquireLockWithSession, acquireResult, hs]
        · simp [acquireLockWithSession, acquireResult]

/-- Witness for C4: the non-`"OK"` string branch and the session-iff-OK
direction at concrete inputs. -/
theorem acquire_reply_mapping_witness :
    acquireLockWithSession ⟨"k", 5⟩ "tokA" (.ok (some (.gstr "QUEUED")))
      ⟨0, 0, 0, 0⟩ = (none, none) ∧
    (acquireLockWithSession ⟨"k", 5⟩ "tokA" (.ok (some (.gstr "OK")))
      ⟨0, 0, 0, 0⟩).1.isSome := by
  constructor
  · exact (acquire_reply_mapping ⟨"k", 5⟩ "tokA" ⟨0, 0, 0, 0⟩).2.2.2.2.2.2.1
      "QUEUED" (by decide)
  · exact ((acquire_reply_mapping ⟨"k", 5⟩ "tokA" ⟨0, 0, 0, 0⟩).2.2.2.2.2.2.2
      (.ok (some (.gstr "OK")))).mpr rfl

/-- Witness for C2: each release branch at concrete inputs. -/
theorem release_script_and_wrapper_witness :
    commandRelease none "tokA" 0 = (none, 2) ∧
    commandRelease (some ⟨"tokA", 5⟩) "tokA" 0 = (none, 1) ∧
    commandRelease (some ⟨"tokB", 5⟩) "tokA" 0 = (some ⟨"tokB", 5⟩, 3) ∧
    releaseResult (.ok (some (.gint 7))) = (false, none) := by
  refine ⟨?_, ?_, ?_, ?_⟩
  · exact (release_script_and_wrapper none "tokA" 0).1 (by decide)
  · exact ((release_script_and_wrapper (some ⟨"tokA", 5⟩) "tokA" 0).2.1 (by decide)).1
  · exact ((release_script_and_wrapper (some ⟨"tokB", 5⟩) "tokA" 0).2.2.1
      "tokB" (by decide) (by decide)).1
  · exact (release_script_and_wrapper none "x" 0).2.2.2.2.1 7
      (by decide) (by decide) (by decide) (by decide)

/-- Helper: a session returned by `acquireLockWithSession` is exactly the
handle built from the lock key, the requesting token, and the conservative
expiry of this call's timing. -/
theorem acquireLockWithSession_success (o : Suo) (token : String)
    (resp : EvalResult) (t : AcqTiming) (xin : Xin)
    (hacq : (acquireLockWithSession o token resp t).1 = some xin) :
    xin = ⟨o.key, token, conservativeExpire o.ttl t⟩ := by
  rcases hr : acquireResult resp with ⟨b, e⟩
  unfold acquireLockWithSession at hacq
  rw [hr] at hacq
  cases e with
  | some e => simp at hacq
  | none =>
    cases b
    · simp at hacq
    · simp at hacq
      rw [hacq]

/-- C5: after a successful acquisition, the release phase runs whatever
the work outcome (normal return, error, or panic); a panic raised by the
work is converted into a normal error returned by the runner instead of
propagating; the runner returns `nil` exactly when the work returned `nil`;
and the returned outcome is independent of the release attempts' results. -/
theorem run_release_and_panic_containment (w : WorkResult)
    (rel relOther : Nat → RelAttempt) (fuel fuelOther : Nat) :
    ((suoLockXqt (.ok ()) w rel fuel).1.releaseRan = true) ∧
    (∀ v, w = .panicked v →
      ∃ e, (suoLockXqt (.ok ()) w rel fuel).1.result = some e) ∧
    ((suoLockXqt (.ok ()) w rel fuel).1.result = none ↔ w = .ret none) ∧
    ((suoLockXqt (.ok ()) w rel fuel).1 =
      (suoLockXqt (.ok ()) w relOther fuelOther).1) := by
  refine ⟨rfl, ?_, ?_, rfl⟩
  · rintro v rfl
    cases v with
    | errVal e => exact ⟨e, rfl⟩
    | otherVal s => exact ⟨"错误(已从崩溃中恢复):" ++ s, rfl⟩
  · cases w with
    | ret e => cases e <;> simp [suoLockXqt, safeRun]
    | panicked v => cases v <;> simp [suoLockXqt, safeRun]

/-- Witness for C5: a work function that panics with a non-error value —
the release phase still runs and the runner returns a normal error. -/
theorem run_release_and_panic_containment_witness :
    ((suoLockXqt (.ok ()) (.panicked (.otherVal "boom"))
      (fun _ => (true, none)) 1).1.releaseRan = true) ∧
    (∃ e, (suoLockXqt (.ok ()) (.panicked (.otherVal "boom"))
      (fun _ => (true, none)) 1).1.result = some e) := by
  have h := run_release_and_panic_containment (.panicked (.otherVal "boom"))
    (fun _ => (true, none)) (fun _ => (false, none)) 1 0
  exact ⟨h.1, h.2.1 (.otherVal "boom") rfl⟩

/-- C6: `AcquireAgainExtendLock` on a session with the matching lock
name delegates to `acquireLockWithSession` with the session's own token; a
session returned by that call carries the same token, and — when the
previous session came from an acquisition that started no later than this
one by at least the new call's measurement gap — a deadline at least the
previous session's deadline. -/
theorem extend_same_token_deadline_monotone (o : Suo) (xin xin' : Xin)
    (resp : EvalResult) (tp t : AcqTiming)
    (hkey : xin.key = o.key)
    (hprev : xin.expire = conservativeExpire o.ttl tp)
    (hp : tp.completion ≤ tp.sinceAt)
    (hgap : t.sinceAt - t.completion ≤ t.start - tp.start)
    (hacq : (acquireLockWithSession o xin.sessionUUID resp t).1 = some xin') :
    acquireAgainExtendLock o xin resp t =
      .ok (acquireLockWithSession o xin.sessionUUID resp t) ∧
    xin'.sessionUUID = xin.sessionUUID ∧
    xin.expire ≤ xin'.expire := by
  have hx := acquireLockWithSession_success o xin.sessionUUID resp t xin' hacq
  refine ⟨by simp [acquireAgainExtendLock, hkey], by rw [hx], ?_⟩
  rw [hx, hprev]
  unfold conservativeExpire
  simp only
  linarith

/-- Witness for C6: a concrete extension whose new deadline 2000010 is at
least the previous deadline 2000000, with the token preserved. -/
theorem extend_same_token_deadline_monotone_witness :
    acquireAgainExtendLock ⟨"k", 2000000⟩ ⟨"k", "tokA", 2000000⟩
      (.ok (some (.gstr "OK"))) ⟨10, 11, 12, 12⟩ =
      .ok (acquireLockWithSession ⟨"k", 2000000⟩
        (Xin.sessionUUID ⟨"k", "tokA", 2000000⟩)
        (.ok (some (.gstr "OK"))) ⟨10, 11, 12, 12⟩) ∧
    (Xin.sessionUUID ⟨"k", "tokA", 2000010⟩ =
      Xin.sessionUUID ⟨"k", "tokA", 2000000⟩) ∧
    (Xin.expire ⟨"k", "tokA", 2000000⟩ ≤ Xin.expire ⟨"k", "tokA", 2000010⟩) :=
  extend_same_token_deadline_monotone ⟨"k", 2000000⟩ ⟨"k", "tokA", 2000000⟩
    ⟨"k", "tokA", 2000010⟩ (.ok (some (.gstr "OK"))) ⟨0, 0, 0, 0⟩
    ⟨10, 11, 12, 12⟩ rfl (by decide) (by decide) (by decide) rfl

/-- C7 helper: every store contact recorded by `retryingAcquire` happened
at an attempt where the caller's context was live, and carried the
invocation's token. -/
theorem retryingAcquire_trace (ctxErr : Nat → Option String)
    (attempt : Nat → String → AttemptOutcome) (token : String) :
    ∀ fuel i j t,
      (j, t) ∈ (retryingAcquire ctxErr attempt token fuel i).2 →
      ctxErr j = none ∧ t = token := by
  intro fuel
  induction fuel with
  | zero =>
    intro i j t h
    simp [retryingAcquire] at h
  | succ f ih =>
    intro i j t h
    unfold retryingAcquire at h
    cases hc : ctxErr i with
    | some e =>
      rw [hc] at h
      simp at h
    | none =>
      rw [hc] at h
      cases ha : attempt i token with
      | success =>
        rw [ha] at h
        simp at h
        obtain ⟨rfl, rfl⟩ := h
        exact ⟨hc, rfl⟩
      | err e =>
        rw [ha] at h
        simp at h
        rcases h with ⟨rfl, rfl⟩ | h
        · exact ⟨hc, rfl⟩
        · exact ih (i + 1) j t h
      | contended =>
        rw [ha] at h
        simp at h
        rcases h with ⟨rfl, rfl⟩ | h
        · exact ⟨hc, rfl⟩
        · exact ih (i + 1) j t h

/-- C7: a context already dead at the start of an acquisition attempt
makes the loop return that context's error immediately, with no store
contact at that or any later attempt; and the acquisition phase of the
runner generates one fresh token per invocation and uses it on every store
contact of the invocation. -/
theorem acquire_loop_ctx_and_single_token :
    (∀ (ctxErr : Nat → Option String)
      (attempt : Nat → String → AttemptOutcome) (token e : String)
      (fuel i : Nat), ctxErr i = some e →
      retryingAcquire ctxErr attempt token (fuel + 1) i =
        (some (some e), [])) ∧
    (∀ (uuidBytes : List Nat) (ctxErr : Nat → Option String)
      (attempt : Nat → String → AttemptOutcome) (fuel j : Nat) (t : String),
      (j, t) ∈ (suoLockAcquirePhase uuidBytes ctxErr attempt fuel).2 →
      ctxErr j = none ∧ t = newUUID uuidBytes) := by
  constructor
  · intro ctxErr attempt token e fuel i h
    simp [retryingAcquire, h]
  · intro uuidBytes ctxErr attempt fuel j t h
    exact retryingAcquire_trace ctxErr attempt (newUUID uuidBytes) fuel 0 j t h

/-- Witness for C7: an already-cancelled context ends the loop with its
error and an empty contact trace; and the one contact of a first-attempt
success carries the generated token. -/
theorem acquire_loop_ctx_and_single_token_witness :
    retryingAcquire (fun _ => some "context canceled")
      (fun _ _ => .contended) "tok" 3 0 =
      (some (some "context canceled"), []) ∧
    ((fun _ => (none : Option String)) 0 = none ∧
      newUUID (List.replicate 16 0) = newUUID (List.replicate 16 0)) := by
  constructor
  · exact acquire_loop_ctx_and_single_token.1 (fun _ => some "context canceled")
      (fun _ _ => .contended) "tok" "context canceled" 2 0 rfl
  · refine acquire_loop_ctx_and_single_token.2 (List.replicate 16 0)
      (fun _ => none) (fun _ _ => .success) 1 0
      (newUUID (List.replicate 16 0)) ?_
    simp [suoLockAcquirePhase, retryingAcquire]

/-- C8 counterexample: `NewSuo` accepts a negative lease duration (−5 ms):
`must.Nice` halts only on the zero value, so construction succeeds rather
than failing fast on a non-positive lease. -/
theorem newSuo_negative_lease_accepted_cex :
    newSuo (some ()) "k" (-5000000) = .ok ⟨"k", -5000000⟩ ∧
    (-5000000 : Int) < 0 :=
  ⟨rfl, by decide⟩

/-- C8 amended: `NewSuo` fails fast with the fatal `must.Nice`
assertion on a nil store client, an empty name, or a zero lease duration;
a non-zero (in particular negative) lease is not rejected. -/
theorem newSuo_zero_value_validation (rds : Option Unit) (key : String)
    (ttl : Int) :
    (newSuo none key ttl = .error .mustNice) ∧
    (rds ≠ none → newSuo rds "" ttl = .error .mustNice) ∧
    (rds ≠ none → key ≠ "" → newSuo rds key 0 = .error .mustNice) ∧
    (rds ≠ none → key ≠ "" → ttl ≠ 0 → newSuo rds key ttl = .ok ⟨key, ttl⟩) := by
  refine ⟨rfl, ?_, ?_, ?_⟩
  · intro hr
    simp [newSuo, hr]
  · intro hr hk
    simp [newSuo, hr, hk]
  · intro hr hk ht
    simp [newSuo, hr, hk, ht]

/-- Witness for C8: zero lease halts construction, a positive one passes. -/
theorem newSuo_zero_value_validation_witness :
    newSuo (some ()) "name" 0 = .error .mustNice ∧
    newSuo (some ()) "name" 5000000 = .ok ⟨"name", 5000000⟩ := by
  have h := newSuo_zero_value_validation (some ()) "name" 5000000
  exact ⟨h.2.2.1 (by decide) (by decide),
    h.2.2.2 (by decide) (by decide) (by decide)⟩

/-- C9 helper: the hex encoding is two characters per byte. -/
theorem hexEncodeToString_length (bytes : List Nat) :
    (hexEncodeToString bytes).length = 2 * bytes.length := by
  show ((bytes.map (fun b =>
    [hexDigit (b / 16), hexDigit (b % 16)])).flatten).length = 2 * bytes.length
  induction bytes with
  | nil => rfl
  | cons b bs ih =>
    simp only [List.map_cons, List.flatten_cons, List.length_append,
      List.length_cons, List.length_nil, List.length_cons, ih]
    omega

/-- C9: a blank token halts `acquire` and `release` with the fatal
`must.OK` assertion before any store contact; and the public `Acquire` path
always sends a 32-character — hence non-blank — hex token built from the
sixteen UUID bytes. -/
theorem empty_token_fatal_before_store (o : Suo) (resp : EvalResult) :
    (acquireChecked o "" resp = .error .mustOK) ∧
    (releaseChecked o "" resp = .error .mustOK) ∧
    (∀ uuidBytes : List Nat, uuidBytes.length = 16 →
      (newUUID uuidBytes).length = 32 ∧
      ∀ sends out, acquirePublic o uuidBytes resp = .ok (sends, out) →
        ∀ s ∈ sends, s.token ≠ "") := by
  refine ⟨rfl, rfl, ?_⟩
  intro uuidBytes hlen
  have h32 : (newUUID uuidBytes).length = 32 := by
    unfold newUUID
    rw [hexEncodeToString_length, hlen]
  have hne : newUUID uuidBytes ≠ "" := by
    intro h
    rw [h] at h32
    simp at h32
  refine ⟨h32, ?_⟩
  intro sends out h s hs
  unfold acquirePublic acquireChecked at h
  rw [if_neg hne] at h
  cases h
  simp at hs
  rw [hs]
  exact hne

/-- Witness for C9: the blank-token fatal halt with a concrete primitive,
and the 32-character token from sixteen zero bytes. -/
theorem empty_token_fatal_before_store_witness :
    acquireChecked ⟨"k", 5⟩ "" (.ok none) = .error .mustOK ∧
    releaseChecked ⟨"k", 5⟩ "" (.ok none) = .error .mustOK ∧
    (newUUID (List.replicate 16 0)).length = 32 := by
  have h := empty_token_fatal_before_store ⟨"k", 5⟩ (.ok none)
  exact ⟨h.1, h.2.1, (h.2.2 (List.replicate 16 0) (by decide)).1⟩

/-- C10: `releaseOnce` selects its context with
`safeCtx(ctx, max(sleep, 10s))`: the bounded fresh background context with
timeout `max(sleep, 10s)` is substituted exactly when the caller's context
already has an error; a live caller context yields a plain cancellable
child with no additional timeout. -/
theorem releaseOnce_ctx_selection :
    (∀ (e : String) (sleep : Int),
      releaseOnceCtx (some e) sleep =
        .timeoutBackground (max sleep tenSeconds)) ∧
    (∀ sleep : Int, releaseOnceCtx none sleep = .cancellableChild) :=
  ⟨fun _ _ => rfl, fun _ => rfl⟩

end RedisSuo
